import Mathlib

/-!
Verification of the movedata migration tool's core behaviour.

The definitions below are a shallow embedding of the Python sources:
`migration_service.py` (batching, per-batch upsert accounting),
`connection_manager.py` (connection retry with exponential backoff,
operation retry), and `cosmos_ru_manager.py` (collection creation and
partition-key recommendation).  Machine-level details that cannot affect
the verified properties (logging, progress bars, wall-clock sleeping)
are elided; everything that determines control flow and the returned
values is modelled.
-/

namespace MoveData

/-- Field values stored in a record.  BSON values are opaque to the tool;
the partition-key analysis only converts them with `str`, so plain
strings model them faithfully. -/
abbrev Val := String

/-- A document (record), modelled as an association list from field
names to values, mirroring a Python dict in insertion order. -/
abbrev Doc := List (String × Val)

/-- Lookup of the identity field, `document.get("_id")`. -/
def docId (d : Doc) : Option Val := d.lookup "_id"

/-- One `ReplaceOne(filter, replacement, upsert=...)` request as built by
`MigrationService._process_batch` (migration_service.py lines 331-342). -/
structure ReplaceOp where
  filterDoc : List (String × Val)
  replacement : Doc
  upsertFlag : Bool
  deriving DecidableEq

/-- MongoDB filter matching: a document matches a filter when every
filter equality holds; in particular the empty filter matches every
document. -/
def docMatches (filterDoc : List (String × Val)) (d : Doc) : Bool :=
  filterDoc.all (fun kv => d.lookup kv.1 == some kv.2)

/-- MongoDB keeps the `_id` of a replaced document: a replacement
without `_id` inherits the matched document's `_id`. -/
def withId (matched : Doc) (repl : Doc) : Doc :=
  match docId repl with
  | some _ => repl
  | none =>
    match docId matched with
    | some v => ("_id", v) :: repl
    | none => repl

/-- Destination-server semantics of one `ReplaceOne` request: replace
the first matching document, else (with `upsert=True`) insert the
replacement, generating a fresh `_id` when it has none.  `fresh` feeds
the `_id` generator. -/
def applyReplaceOne (fresh : Nat) (coll : List Doc) (op : ReplaceOp) : Nat × List Doc :=
  match coll.findIdx? (fun d => docMatches op.filterDoc d) with
  | some i => (fresh, coll.set i (withId (coll.getD i []) op.replacement))
  | none =>
    if op.upsertFlag then
      match docId op.replacement with
      | some _ => (fresh, coll ++ [op.replacement])
      | none => (fresh + 1, coll ++ [("_id", "generated_" ++ toString fresh) :: op.replacement])
    else (fresh, coll)

/-- The operations list built by `_process_batch` (lines 331-342): a
record with `_id` becomes `ReplaceOne(\x7b"_id": id\x7d, doc, upsert=True)`;
a record without `_id` becomes `ReplaceOne(\x7b\x7d, doc, upsert=True)`. -/
def buildBatchOps (batch : List Doc) : List ReplaceOp :=
  batch.map (fun d =>
    match docId d with
    | some v => ⟨[("_id", v)], d, true⟩
    | none => ⟨[], d, true⟩)

/-- `dest_collection.bulk_write(operations)`: apply the requests in
order to the destination collection. -/
def bulkWriteDocs (fresh : Nat) (coll : List Doc) (ops : List ReplaceOp) : Nat × List Doc :=
  ops.foldl (fun st op => applyReplaceOne st.1 st.2 op) (fresh, coll)

/-- Destination collection already holding one document, for the C1
failing input. -/
def c1DestBefore : List Doc := [[("_id", "0"), ("x", "old")]]

/-- A batch holding a single record that lacks an `_id` field. -/
def c1Batch : List Doc := [[("y", "new")]]

/-- A batch of two records, both lacking an `_id` field. -/
def c1BatchTwo : List Doc := [[("y", "new")], [("z", "newer")]]

/-- C1: the claim says a record without `_id` is inserted as a new
document and no pre-existing destination record is modified.  The code
instead issues `ReplaceOne` with an empty filter and `upsert=True`,
which matches the first pre-existing destination document and replaces
it: a destination with one document stays at one document whose content
is the incoming record, and two `_id`-less records written into an empty
destination collapse into a single document. -/
theorem C1_missing_id_record_replaces_existing :
    (bulkWriteDocs 0 c1DestBefore (buildBatchOps c1Batch)).2
        = [[("_id", "0"), ("y", "new")]] ∧
    ((bulkWriteDocs 0 c1DestBefore (buildBatchOps c1Batch)).2).length = 1 ∧
    ((bulkWriteDocs 0 [] (buildBatchOps c1BatchTwo)).2).length = 1 := by
  decide

/-! Error taxonomy of the pymongo driver as used by the tool.
`ConnectionFailure`, `ServerSelectionTimeoutError`, `OperationFailure`
and `BulkWriteError` are all subclasses of `PyMongoError`; other Python
exceptions (e.g. `ValueError`) are not. -/

/-- A pymongo exception, tagged with an abstract cause identifier. -/
inductive PyErr where
  | connectionFailure (cause : Nat)
  | serverSelectionTimeout (cause : Nat)
  | operationFailure (cause : Nat)
  | otherPyMongo (cause : Nat)
  deriving DecidableEq

/-- Any exception an operation may raise: a pymongo error or a
non-pymongo Python exception. -/
inductive OpError where
  | py (e : PyErr)
  | nonPy (cause : Nat)
  deriving DecidableEq

/-- Whether an exception is caught by an `except PyMongoError` clause.
The executor's `except (ConnectionFailure, ServerSelectionTimeoutError,
PyMongoError)` tuple (connection_manager.py line 281) is extensionally
the same test, because the first two classes are subclasses of
`PyMongoError`. -/
def isPyMongoError : OpError → Bool
  | .py _ => true
  | .nonPy _ => false

/-- The spec's connection-class errors: timeout, broken pipe, or server
selection failure, i.e. `ConnectionFailure` (and its subclasses) or
`ServerSelectionTimeoutError`. -/
def isConnectionClass : OpError → Bool
  | .py (.connectionFailure _) => true
  | .py (.serverSelectionTimeout _) => true
  | _ => false

/-- What a call of `execute_with_retry` can do: return the operation's
value, raise an exception, or fall off the `for` loop (only possible
when `operation_retry_attempts = 0`), which in Python returns `None`. -/
inductive ExecOutcome (α : Type) where
  | ok (a : α)
  | raised (e : OpError)
  | noneReturn
  deriving DecidableEq

/-- Loop body of `ConnectionManager.execute_with_retry`
(connection_manager.py lines 277-297).  `op i` is what the operation
does on its i-th try (0-indexed).  Arguments after `op`: the current
attempt index and the remaining loop iterations; the results are the
outcome, the number of attempts performed from this point, and the
number of reconnection requests issued from this point. -/
def execRetryGo {α : Type} (maxRetries : Nat) (op : Nat → Except OpError α) :
    Nat → Nat → ExecOutcome α × Nat × Nat
  | _, 0 => (.noneReturn, 0, 0)
  | attempt, remaining + 1 =>
    match op attempt with
    | .ok a => (.ok a, 1, 0)
    | .error e =>
      if isPyMongoError e then
        if attempt < maxRetries - 1 then
          let r := execRetryGo maxRetries op (attempt + 1) remaining
          (r.1, r.2.1 + 1, r.2.2 + 1)
        else (.raised e, 1, 0)
      else (.raised e, 1, 0)

/-- `ConnectionManager.execute_with_retry(operation, role)`: run the
operation for up to `maxRetries` attempts, requesting reconnection and
sleeping before each retry of an exception caught by the `except`
tuple; an uncaught exception propagates at once; the last caught
failure is re-raised. -/
def executeWithRetry {α : Type} (maxRetries : Nat) (op : Nat → Except OpError α) :
    ExecOutcome α × Nat × Nat :=
  execRetryGo maxRetries op 0 maxRetries

/-- C2: the claim says a non-connection-class error (a logical/data
error such as pymongo's `OperationFailure`) propagates immediately with
no retry and no reconnection.  The `except` clause catches every
`PyMongoError`, so with the default `operation_retry_attempts = 3` a
persistently raised `OperationFailure` is attempted 3 times with 2
reconnection requests before being re-raised; only non-pymongo
exceptions propagate after a single attempt. -/
theorem C2_logical_pymongo_error_is_retried :
    executeWithRetry 3 (fun _ => (.error (.py (.operationFailure 5)) : Except OpError Nat))
        = (.raised (.py (.operationFailure 5)), 3, 2) ∧
    isConnectionClass (.py (.operationFailure 5)) = false ∧
    executeWithRetry 3 (fun _ => (.error (.nonPy 7) : Except OpError Nat))
        = (.raised (.nonPy 7), 1, 0) := by
  decide

/-- System databases skipped by `MigrationService.list_databases`
(migration_service.py line 64). -/
def systemDbs : List String := ["admin", "local", "config"]

/-- The inner `_list_databases_operation`: list the database names (the
underlying driver call may raise) and drop the system databases. -/
def listDatabasesOp (namesResult : Except OpError (List String)) :
    Except OpError (List String) :=
  namesResult.map (fun names => names.filter (fun db => !systemDbs.contains db))

/-- `MigrationService.list_databases`: run the listing operation through
the executor; a `PyMongoError` escaping the executor is caught and
turned into an empty list (lines 68-75); other exceptions propagate. -/
def listDatabases (maxRetries : Nat) (namesResult : Except OpError (List String)) :
    ExecOutcome (List String) :=
  match executeWithRetry maxRetries (fun _ => listDatabasesOp namesResult) with
  | (.ok v, _, _) => .ok v
  | (.raised e, _, _) => if isPyMongoError e then .ok [] else .raised e
  | (.noneReturn, _, _) => .noneReturn

/-- When the operation persistently raises an error caught by the
executor's `except` tuple, the loop re-raises it on the last attempt. -/
theorem execRetryGo_const_raised {α : Type} (maxR : Nat) (e : OpError)
    (he : isPyMongoError e = true) :
    ∀ remaining attempt, 1 ≤ remaining → attempt + remaining = maxR →
      (execRetryGo maxR (fun _ => (.error e : Except OpError α)) attempt remaining).1
        = .raised e := by
  intro remaining
  induction remaining with
  | zero => intro attempt h1 _; omega
  | succ r ih =>
    intro attempt _ hsum
    simp only [execRetryGo, he, if_true]
    rcases Nat.eq_zero_or_pos r with hr | hr
    · subst hr
      have : ¬ attempt < maxR - 1 := by omega
      simp [this]
    · have hlt : attempt < maxR - 1 := by omega
      simp only [hlt, if_true]
      exact ih (attempt + 1) hr (by omega)

/-- C10: listing databases filters out 'admin', 'local' and 'config',
and a database error from the underlying listing (re-raised by the
executor after its retries) yields an empty list rather than an
exception. -/
theorem C10_list_databases_filters_and_swallows (maxR : Nat) (names : List String)
    (e : PyErr) (hR : 1 ≤ maxR) :
    listDatabases maxR (.ok names)
        = .ok (names.filter (fun db => !systemDbs.contains db)) ∧
    (∀ l, listDatabases maxR (.ok names) = .ok l →
      "admin" ∉ l ∧ "local" ∉ l ∧ "config" ∉ l) ∧
    listDatabases maxR (.error (.py e)) = .ok [] := by
  obtain ⟨m, rfl⟩ : ∃ m, maxR = m + 1 := ⟨maxR - 1, by omega⟩
  refine ⟨?_, ?_, ?_⟩
  · simp [listDatabases, executeWithRetry, execRetryGo, listDatabasesOp, Except.map]
  · intro l hl
    simp [listDatabases, executeWithRetry, execRetryGo, listDatabasesOp, Except.map] at hl
    subst hl
    refine ⟨?_, ?_, ?_⟩ <;>
      · intro hmem
        rcases List.mem_filter.mp hmem with ⟨-, hok⟩
        simp [systemDbs] at hok
  · have hgo := execRetryGo_const_raised (α := List String) (m + 1) (.py e) rfl
      (m + 1) 0 (by omega) (by omega)
    have hop : (fun (_ : Nat) => listDatabasesOp (.error (.py e)))
        = (fun (_ : Nat) => (.error (.py e) : Except OpError (List String))) := by
      funext i; simp [listDatabasesOp, Except.map]
    simp only [listDatabases, executeWithRetry, hop]
    rcases hres : execRetryGo (m + 1)
        (fun _ => (.error (.py e) : Except OpError (List String))) 0 (m + 1) with ⟨o, a, b⟩
    rw [hres] at hgo
    simp at hgo
    subst hgo
    simp [isPyMongoError]

/-- Concrete run of the C10 theorem: three retries, a source holding
'admin' and 'orders', and a persistent `OperationFailure`. -/
theorem C10_witness :
    listDatabases 3 (.ok ["admin", "orders"]) = .ok ["orders"] ∧
    listDatabases 3 (.error (.py (.operationFailure 4))) = .ok [] := by
  have h := C10_list_databases_filters_and_swallows 3 ["admin", "orders"]
    (.operationFailure 4) (by decide)
  refine ⟨?_, h.2.2⟩
  have := h.1
  simpa using this

/-! Connection retry model (`ConnectionManager._create_mongo_client_with_retry`
and `ConnectionManager.connect_to_source`, connection_manager.py
lines 196-259 and 88-140). -/

/-- What one connection attempt (client construction plus the `ping`
liveness probe) does. -/
inductive AttemptResult where
  | success
  | connFail (cause : Nat)
  | otherFail (cause : Nat)
  deriving DecidableEq

/-- How a call of `_create_mongo_client_with_retry` ends: a verified
client is returned; the `for` loop is exhausted without returning
(Python then returns `None`, only possible when
`connection_retry_attempts = 0`); a `ConnectionFailure` wrapping the
last cause is raised; or a non-connection exception is re-raised. -/
inductive ConnectOutcome where
  | connected
  | noneReturn
  | connFailureRaised (lastCause : Nat)
  | otherRaised (cause : Nat)
  deriving DecidableEq

/-- Observable trace of `_create_mongo_client_with_retry`: the final
outcome, how many attempts ran, and the delays slept between
consecutive attempts, in seconds. -/
structure ConnectTrace where
  outcome : ConnectOutcome
  attemptsMade : Nat
  delays : List ℚ
  deriving DecidableEq

/-- Backoff delay before retrying a failed connection-class attempt
(lines 239-241): `(base_delay_ms / 1000) * 2 ** attempt + attempt * 0.1`,
the second summand being the jitter. -/
def connDelay (baseMs : ℚ) (attempt : Nat) : ℚ :=
  baseMs / 1000 * 2 ^ attempt + (attempt : ℚ) * (1 / 10)

/-- Backoff delay used in the generic `except Exception` branch
(line 255): no jitter there. -/
def plainDelay (baseMs : ℚ) (attempt : Nat) : ℚ :=
  baseMs / 1000 * 2 ^ attempt

/-- Loop body of `_create_mongo_client_with_retry`: arguments are the
current attempt index and the remaining loop iterations; `outcome i`
says what the i-th attempt does. -/
def connectRetryGo (total : Nat) (baseMs : ℚ) (outcome : Nat → AttemptResult) :
    Nat → Nat → ConnectTrace
  | _, 0 => ⟨.noneReturn, 0, []⟩
  | attempt, remaining + 1 =>
    match outcome attempt with
    | .success => ⟨.connected, 1, []⟩
    | .connFail c =>
      if attempt < total - 1 then
        let r := connectRetryGo total baseMs outcome (attempt + 1) remaining
        ⟨r.outcome, r.attemptsMade + 1, connDelay baseMs attempt :: r.delays⟩
      else ⟨.connFailureRaised c, 1, []⟩
    | .otherFail c =>
      if attempt < total - 1 then
        let r := connectRetryGo total baseMs outcome (attempt + 1) remaining
        ⟨r.outcome, r.attemptsMade + 1, plainDelay baseMs attempt :: r.delays⟩
      else ⟨.otherRaised c, 1, []⟩

/-- `ConnectionManager._create_mongo_client_with_retry`: up to `total`
(`connection_retry_attempts`) tries, with backoff between them. -/
def createMongoClientWithRetry (total : Nat) (baseMs : ℚ)
    (outcome : Nat → AttemptResult) : ConnectTrace :=
  connectRetryGo total baseMs outcome 0 total

/-- `ConnectionManager.connect_to_source` for the connection-string
path with no reusable handle: any exception from the fresh-connection
helper is caught by the outer `except Exception` (lines 135-140) and
the method returns `None`. `existingHealthy` is true when a previous
handle exists and the health monitor marked it healthy, in which case
it is returned unchanged. -/
def connectToSource (existingHealthy : Bool) (total : Nat) (baseMs : ℚ)
    (outcome : Nat → AttemptResult) : Option Unit :=
  if existingHealthy then some ()
  else
    match (createMongoClientWithRetry total baseMs outcome).outcome with
    | .connected => some ()
    | .noneReturn => none
    | .connFailureRaised _ => none
    | .otherRaised _ => none

/-- C5 counterexample: with the default five attempts all failing,
`connect_to_source` returns `None` — precisely the non-error null
sentinel the claim says is never returned. -/
theorem C5_counterexample_connect_returns_none :
    connectToSource false 5 2000 (fun i => .connFail i) = none := by
  decide

/-- When every attempt fails with a connection-class error, the retry
loop raises `ConnectionFailure` carrying the cause of the last
attempt, after running all remaining attempts. -/
theorem connectRetryGo_all_connFail (total : Nat) (baseMs : ℚ) (c : Nat → Nat)
    (outcome : Nat → AttemptResult) :
    ∀ remaining attempt, 1 ≤ remaining → attempt + remaining = total →
      (∀ i, attempt ≤ i → i < total → outcome i = .connFail (c i)) →
      (connectRetryGo total baseMs outcome attempt remaining).outcome
          = .connFailureRaised (c (total - 1)) ∧
      (connectRetryGo total baseMs outcome attempt remaining).attemptsMade = remaining := by
  intro remaining
  induction remaining with
  | zero => intro attempt h1 _ _; omega
  | succ r ih =>
    intro attempt _ hsum hout
    have hattempt : outcome attempt = .connFail (c attempt) :=
      hout attempt le_rfl (by omega)
    rcases Nat.eq_zero_or_pos r with hr | hr
    · subst hr
      have hnl : ¬ attempt < total - 1 := by omega
      have hlast : attempt = total - 1 := by omega
      subst hlast
      simp [connectRetryGo, hattempt, hnl]
    · have hlt : attempt < total - 1 := by omega
      have hrec := ih (attempt + 1) hr (by omega)
        (fun i hi hi2 => hout i (by omega) hi2)
      simp [connectRetryGo, hattempt, hlt, hrec.1, hrec.2]

/-- C5 (amended): when no handle is reusable and all
`connection_retry_attempts` tries fail with connection-class errors,
the fresh-connection helper raises `ConnectionFailure` carrying the
cause of the final attempt; `connect_to_source` however catches it and
returns `None` instead of propagating an error. -/
theorem C5_amended_connect_failure_swallowed (total : Nat) (baseMs : ℚ)
    (c : Nat → Nat) (outcome : Nat → AttemptResult) (h1 : 1 ≤ total)
    (hout : ∀ i, i < total → outcome i = .connFail (c i)) :
    (createMongoClientWithRetry total baseMs outcome).outcome
        = .connFailureRaised (c (total - 1)) ∧
    (createMongoClientWithRetry total baseMs outcome).attemptsMade = total ∧
    connectToSource false total baseMs outcome = none := by
  have h := connectRetryGo_all_connFail total baseMs c outcome total 0 h1 (by omega)
    (fun i _ hi2 => hout i hi2)
  refine ⟨h.1, h.2, ?_⟩
  simp [connectToSource, createMongoClientWithRetry, h.1]

/-- Concrete run of the amended C5 theorem: two attempts, causes 10
and 11; the helper raises with the last cause 11 and
`connect_to_source` returns `None`. -/
theorem C5_amended_witness :
    (createMongoClientWithRetry 2 2000 (fun i => .connFail (10 + i))).outcome
        = .connFailureRaised 11 ∧
    (createMongoClientWithRetry 2 2000 (fun i => .connFail (10 + i))).attemptsMade = 2 ∧
    connectToSource false 2 2000 (fun i => .connFail (10 + i)) = none := by
  exact C5_amended_connect_failure_swallowed 2 2000 (fun i => 10 + i)
    (fun i => .connFail (10 + i)) (by decide) (fun i _ => rfl)

/-- When the first attempts up to index k fail with connection-class
errors and attempt k succeeds, the retry loop returns the verified
client, having run the attempts from the current index through k and
slept the backoff delay after each failed one. -/
theorem connectRetryGo_fail_then_success (total k : Nat) (baseMs : ℚ) (c : Nat → Nat)
    (outcome : Nat → AttemptResult) (hk : k < total)
    (hfail : ∀ i, i < k → outcome i = .connFail (c i)) (hsucc : outcome k = .success) :
    ∀ remaining attempt, attempt + remaining = total → attempt ≤ k →
      connectRetryGo total baseMs outcome attempt remaining
        = ⟨.connected, k - attempt + 1,
            (List.range' attempt (k - attempt)).map (connDelay baseMs)⟩ := by
  intro remaining
  induction remaining with
  | zero => intro attempt hsum hle; omega
  | succ r ih =>
    intro attempt hsum hle
    rcases eq_or_lt_of_le hle with heq | hlt
    · subst heq
      simp [connectRetryGo, hsucc]
    · have hatt : outcome attempt = .connFail (c attempt) := hfail attempt hlt
      have hlt2 : attempt < total - 1 := by omega
      have hrec := ih (attempt + 1) (by omega) (by omega)
      simp only [connectRetryGo, hatt, hlt2, if_true, hrec]
      rw [show k - attempt = (k - (attempt + 1)) + 1 from by omega, List.range'_succ]
      simp only [List.map_cons, ConnectTrace.mk.injEq]

/-- The backoff delay of connection_manager.py line 241 is strictly
increasing in the attempt index whenever the configured base delay is
nonnegative. -/
theorem connDelay_strictMono (baseMs : ℚ) (hbase : 0 ≤ baseMs) :
    StrictMono (connDelay baseMs) := by
  intro i j hij
  unfold connDelay
  have h2 : (2 : ℚ) ^ i ≤ 2 ^ j :=
    pow_le_pow_right₀ (by norm_num) (le_of_lt hij)
  have hb : baseMs / 1000 * 2 ^ i ≤ baseMs / 1000 * 2 ^ j :=
    mul_le_mul_of_nonneg_left h2 (by positivity)
  have hj : (i : ℚ) * (1 / 10) < (j : ℚ) * (1 / 10) := by
    have hij' : (i : ℚ) < j := by exact_mod_cast hij
    linarith
  linarith

/-- C8: with k failed connection-class attempts followed by a success
(k below the retry budget), the fresh-connection procedure returns the
verified client after exactly k+1 attempts, sleeping
`connectionRetryDelay * 2 ** i + jitter(i)` seconds after the i-th
failed attempt, a strictly increasing sequence of delays. -/
theorem C8_connect_retry_backoff (total k : Nat) (baseMs : ℚ) (c : Nat → Nat)
    (outcome : Nat → AttemptResult) (hk : k < total) (hbase : 0 ≤ baseMs)
    (hfail : ∀ i, i < k → outcome i = .connFail (c i)) (hsucc : outcome k = .success) :
    createMongoClientWithRetry total baseMs outcome
        = ⟨.connected, k + 1, (List.range k).map (connDelay baseMs)⟩ ∧
    List.Chain' (· < ·) ((List.range k).map (connDelay baseMs)) := by
  constructor
  · have h := connectRetryGo_fail_then_success total k baseMs c outcome hk hfail hsucc
      total 0 (by omega) (by omega)
    simpa [createMongoClientWithRetry, List.range_eq_range'] using h
  · apply List.Pairwise.chain'
    refine (List.pairwise_map).2 ?_
    exact (List.pairwise_lt_range k).imp
      (fun hab => connDelay_strictMono baseMs hbase hab)

/-- Concrete attempt pattern for the C8 witness: the first two attempts
fail with connection-class errors, the third succeeds. -/
def c8Outcome : Nat → AttemptResult :=
  fun i => if i < 2 then .connFail i else .success

/-- Concrete run of the C8 theorem: defaults `total = 5`,
`baseMs = 2000`, two failures then success give three attempts and the
two strictly increasing delays `2` and `4.1` seconds. -/
theorem C8_witness :
    createMongoClientWithRetry 5 2000 c8Outcome
        = ⟨.connected, 3, (List.range 2).map (connDelay 2000)⟩ ∧
    List.Chain' (· < ·) ((List.range 2).map (connDelay 2000)) := by
  exact C8_connect_retry_backoff 5 2 2000 (fun i => i) c8Outcome (by omega)
    (by norm_num) (fun i hi => by simp [c8Outcome, hi]) (by simp [c8Outcome])

/-! Streaming loop of `MigrationService.migrate_collection`
(migration_service.py lines 262-287): accumulate cursor records into a
batch, flush whenever the batch reaches `batch_size`, flush the
remainder at end of cursor. -/

/-- The batches flushed by the streaming loop, given the pending batch
accumulator and the records still to be read from the cursor. -/
def streamBatches {α : Type} (batchSize : Nat) : List α → List α → List (List α)
  | acc, [] => if acc.isEmpty then [] else [acc]
  | acc, r :: rs =>
    let acc2 := acc ++ [r]
    if batchSize ≤ acc2.length then acc2 :: streamBatches batchSize [] rs
    else streamBatches batchSize acc2 rs

/-- Every record read from the cursor ends up in exactly one flushed
batch: the flushed batch lengths sum to the pending plus remaining
record count. -/
theorem streamBatches_sum_length {α : Type} (B : Nat) (l acc : List α) :
    ((streamBatches B acc l).map List.length).sum = acc.length + l.length := by
  induction l generalizing acc with
  | nil =>
    rcases acc with _ | ⟨a, as⟩ <;> simp [streamBatches]
  | cons r rs ih =>
    simp only [streamBatches]
    by_cases h : B ≤ (acc ++ [r]).length
    · simp only [h, if_true, List.map_cons, List.sum_cons, ih []]
      simp
      omega
    · simp only [h, if_false, ih (acc ++ [r])]
      simp
      omega

/-- The streaming loop flushes exactly the ceiling number of batches:
with fewer pending records than one batch, the flush count is
`⌈(pending + remaining) / B⌉`, written `(pending + remaining + B - 1) / B`. -/
theorem streamBatches_count {α : Type} (B : Nat) (hB : 0 < B) (l : List α) :
    ∀ acc : List α, acc.length < B →
      (streamBatches B acc l).length = (acc.length + l.length + B - 1) / B := by
  induction l with
  | nil =>
    intro acc hacc
    rcases acc with _ | ⟨a, as⟩
    · simp [streamBatches, Nat.div_eq_of_lt (show B - 1 < B by omega)]
    · have hlen : (a :: as).length + ([] : List α).length + B - 1
          = ((a :: as).length - 1) + B := by
        simp only [List.length_cons, List.length_nil]
        omega
      have hsmall : (a :: as).length - 1 < B := by
        simp only [List.length_cons] at hacc ⊢
        omega
      simp only [streamBatches, List.isEmpty_cons, Bool.false_eq_true, if_false]
      rw [hlen, Nat.add_div_right _ hB, Nat.div_eq_of_lt hsmall]
      simp
  | cons r rs ih =>
    intro acc hacc
    simp only [streamBatches]
    by_cases h : B ≤ (acc ++ [r]).length
    · have hfull : acc.length + 1 = B := by
        simp only [List.length_append, List.length_singleton] at h
        omega
      have hrec := ih [] (by simpa using hB)
      simp only [h, if_true, List.length_cons, hrec, List.length_nil, Nat.zero_add]
      have hrw : acc.length + (rs.length + 1) + B - 1 = (rs.length + B - 1) + B := by
        omega
      rw [hrw, Nat.add_div_right _ hB]
    · have hlen : (acc ++ [r]).length < B := Nat.lt_of_not_le h
      simp only [h, if_false, ih (acc ++ [r]) hlen, List.length_cons]
      have hnum : (acc ++ [r]).length + rs.length + B - 1
          = acc.length + (rs.length + 1) + B - 1 := by
        simp only [List.length_append, List.length_singleton]
        omega
      rw [hnum]

/-- Result of one `bulk_write` call as observed by `_process_batch`:
clean success with the driver's counts, a `BulkWriteError` carrying the
partial counts and the write errors, or another `PyMongoError` in which
case no record of the batch survives. -/
inductive BulkWriteOutcome where
  | ok (nInserted nUpserted nModified : Nat)
  | bulkWriteErr (nInserted nUpserted nModified nFailed : Nat)
  | pyMongoErr (cause : Nat)
  deriving DecidableEq

/-- The statistics dict built by `_process_batch_operation`
(migration_service.py lines 322-385).  `raw_inserted` is absent from
the dict in the early-return and `PyMongoError` branches; the caller
reads it with `.get("raw_inserted", 0)`, so 0 models the absence. -/
structure BatchStats where
  inserted : Nat
  failed : Nat
  upserted : Nat
  modified : Nat
  rawInserted : Nat
  deriving DecidableEq

/-- `MigrationService._process_batch` for a batch of `batchLen` records
whose `bulk_write` behaves as `res`.  All three exception branches are
handled inside the operation, so the retry wrapper returns the first
attempt unchanged. -/
def processBatch (batchLen : Nat) (res : BulkWriteOutcome) : BatchStats :=
  if batchLen = 0 then ⟨0, 0, 0, 0, 0⟩
  else
    match res with
    | .ok i u m => ⟨i + u + m, 0, u, m, i⟩
    | .bulkWriteErr i u m f => ⟨i + u + m, f, u, m, i⟩
    | .pyMongoErr _ => ⟨0, batchLen, 0, 0, 0⟩

/-- The per-collection statistics dict of `migrate_collection`
(lines 249-257). -/
structure MigrationStats where
  success : Bool
  totalDocuments : Nat
  migratedDocuments : Nat
  failedDocuments : Nat
  insertedDocuments : Nat
  upsertedDocuments : Nat
  modifiedDocuments : Nat
  deriving DecidableEq

/-- One accumulation step of the streaming loop (lines 271-275 and
282-286): add a batch's outcome into the running statistics. -/
def accumulateBatch (st : MigrationStats) (bs : BatchStats) : MigrationStats :=
  { st with
    migratedDocuments := st.migratedDocuments + bs.inserted
    failedDocuments := st.failedDocuments + bs.failed
    insertedDocuments := st.insertedDocuments + bs.rawInserted
    upsertedDocuments := st.upsertedDocuments + bs.upserted
    modifiedDocuments := st.modifiedDocuments + bs.modified }

/-- Outcome of processing each flushed batch in order: `bulkRes i` is
how `bulk_write` behaves on the i-th flushed batch. -/
def batchOutcomes (records : List Doc) (B : Nat)
    (bulkRes : Nat → BulkWriteOutcome) : List BatchStats :=
  (streamBatches B [] records).enum.map
    (fun p => processBatch p.2.length (bulkRes p.1))

/-- `MigrationService.migrate_collection` (lines 182-310), with the
destination-container phase abstracted by `ensureOk` (the boolean from
`ensure_collection_exists`, consulted only on the RU path) and with the
source cursor yielding `records`.  A failed RU container creation
returns the error dict with `success = False` before any streaming;
an empty source returns success with zero counts; otherwise the batches
are streamed and accumulated, and `success` stays `True`. -/
def migrateCollection (targetIsVcore : Bool) (ensureOk : Bool) (records : List Doc)
    (B : Nat) (bulkRes : Nat → BulkWriteOutcome) : MigrationStats :=
  if !targetIsVcore && !ensureOk then ⟨false, 0, 0, 0, 0, 0, 0⟩
  else if records.length = 0 then ⟨true, 0, 0, 0, 0, 0, 0⟩
  else
    (batchOutcomes records B bulkRes).foldl accumulateBatch
      ⟨true, records.length, 0, 0, 0, 0, 0⟩

/-- C3: streaming N records with batch size B flushes exactly
`⌈N / B⌉` batches through the write path, and the attempted record
counts of the batches sum to N. -/
theorem C3_stream_batch_counts {α : Type} (B N : Nat) (records : List α)
    (hB : 1 ≤ B) (hN : records.length = N) (_hN1 : 1 ≤ N) :
    (streamBatches B ([] : List α) records).length = (N + B - 1) / B ∧
    ((streamBatches B ([] : List α) records).map List.length).sum = N := by
  constructor
  · have h := streamBatches_count B (by omega) records ([] : List α) (by simpa using hB)
    simpa [hN] using h
  · simpa [hN] using streamBatches_sum_length B records ([] : List α)

/-- Concrete run of the C3 theorem: 5 records with batch size 2 flush
3 batches totalling 5 attempted records. -/
theorem C3_witness :
    (streamBatches 2 ([] : List Nat) [0, 1, 2, 3, 4]).length = (5 + 2 - 1) / 2 ∧
    ((streamBatches 2 ([] : List Nat) [0, 1, 2, 3, 4]).map List.length).sum = 5 := by
  exact C3_stream_batch_counts 2 5 [0, 1, 2, 3, 4] (by decide) (by decide) (by decide)

/-- Accumulating batch outcomes never touches the `success` flag. -/
theorem foldl_accumulate_success (l : List BatchStats) (init : MigrationStats) :
    (l.foldl accumulateBatch init).success = init.success := by
  induction l generalizing init with
  | nil => rfl
  | cons b bs ih => exact ih (accumulateBatch init b)

/-- The accumulated failed count is the sum of the per-batch failed
counts: no batch outcome is dropped on the way. -/
theorem foldl_accumulate_failed (l : List BatchStats) (init : MigrationStats) :
    (l.foldl accumulateBatch init).failedDocuments
      = init.failedDocuments + (l.map (fun b => b.failed)).sum := by
  induction l generalizing init with
  | nil => simp
  | cons b bs ih =>
    simp only [List.foldl_cons, List.map_cons, List.sum_cons, ih (accumulateBatch init b)]
    simp [accumulateBatch]
    omega

/-- The accumulated migrated count is likewise the sum over all
batches. -/
theorem foldl_accumulate_migrated (l : List BatchStats) (init : MigrationStats) :
    (l.foldl accumulateBatch init).migratedDocuments
      = init.migratedDocuments + (l.map (fun b => b.inserted)).sum := by
  induction l generalizing init with
  | nil => simp
  | cons b bs ih =>
    simp only [List.foldl_cons, List.map_cons, List.sum_cons, ih (accumulateBatch init b)]
    simp [accumulateBatch]
    omega

/-- C4: a partially failed bulk write keeps the surviving counts and
reports the number of write errors as `failed` (so a batch of 10 with
3 failures reports attempted = inserted + failed = 10), and the engine
processes every flushed batch of the unit — one outcome per batch, the
unit's failed count being the sum over all of them — rather than
aborting at the first partial failure. -/
theorem C4_partial_batch_failure_accounting (i u m f b : Nat)
    (hb : i + u + m + f = b) (hb1 : 1 ≤ b)
    (records : List Doc) (B : Nat) (bulkRes : Nat → BulkWriteOutcome)
    (hrec : records ≠ []) :
    (processBatch b (.bulkWriteErr i u m f)).inserted = i + u + m ∧
    (processBatch b (.bulkWriteErr i u m f)).failed = f ∧
    (processBatch b (.bulkWriteErr i u m f)).inserted
        + (processBatch b (.bulkWriteErr i u m f)).failed = b ∧
    (batchOutcomes records B bulkRes).length = (streamBatches B ([] : List Doc) records).length ∧
    (migrateCollection true true records B bulkRes).failedDocuments
        = ((batchOutcomes records B bulkRes).map (fun bs => bs.failed)).sum := by
  have hbne : b ≠ 0 := by omega
  refine ⟨?_, ?_, ?_, ?_, ?_⟩
  · simp [processBatch, hbne]
  · simp [processBatch, hbne]
  · simp [processBatch, hbne]
    omega
  · simp [batchOutcomes]
  · have hlen : records.length ≠ 0 := by
      simpa [List.length_eq_zero] using hrec
    simp only [migrateCollection, Bool.not_true, Bool.and_self, Bool.false_and,
      Bool.false_eq_true, if_false, hlen]
    simp [foldl_accumulate_failed]

/-- Concrete run of the C4 theorem: a batch of 10 records with 4
inserted, 2 upserted, 1 modified and 3 write errors, inside a
two-batch unit. -/
theorem C4_witness :
    (processBatch 10 (.bulkWriteErr 4 2 1 3)).inserted = 7 ∧
    (processBatch 10 (.bulkWriteErr 4 2 1 3)).failed = 3 ∧
    (processBatch 10 (.bulkWriteErr 4 2 1 3)).inserted
        + (processBatch 10 (.bulkWriteErr 4 2 1 3)).failed = 10 ∧
    (batchOutcomes [[("a", "1")], [("a", "2")], [("a", "3")]] 2
        (fun _ => .bulkWriteErr 0 1 0 1)).length
      = (streamBatches 2 ([] : List Doc) [[("a", "1")], [("a", "2")], [("a", "3")]]).length ∧
    (migrateCollection true true [[("a", "1")], [("a", "2")], [("a", "3")]] 2
        (fun _ => .bulkWriteErr 0 1 0 1)).failedDocuments
      = ((batchOutcomes [[("a", "1")], [("a", "2")], [("a", "3")]] 2
          (fun _ => .bulkWriteErr 0 1 0 1)).map (fun bs => bs.failed)).sum := by
  have h := C4_partial_batch_failure_accounting 4 2 1 3 10 (by decide) (by decide)
    [[("a", "1")], [("a", "2")], [("a", "3")]] 2 (fun _ => .bulkWriteErr 0 1 0 1)
    (by decide)
  exact ⟨by decide, h.2.1, h.2.2.1, h.2.2.2.1, h.2.2.2.2⟩

/-- C9: the transfer report's `success` flag is `True` whenever the
destination-container phase did not fail (the only unrecoverable error
before streaming in the model), whatever the per-batch outcomes — in
particular a nonzero failed count leaves `success` `True`; and a failed
container phase on the RU path yields `success = False`. -/
theorem C9_success_independent_of_failed_count (records : List Doc) (B : Nat)
    (bulkRes : Nat → BulkWriteOutcome) :
    (∀ vcore ensureOk, vcore = true ∨ ensureOk = true →
      (migrateCollection vcore ensureOk records B bulkRes).success = true) ∧
    (migrateCollection false false records B bulkRes).success = false := by
  constructor
  · intro vcore ensureOk h
    have hcond : (!vcore && !ensureOk) = false := by
      rcases h with h | h <;> simp [h]
    simp only [migrateCollection, hcond, Bool.false_eq_true, if_false]
    by_cases hlen : records.length = 0
    · simp [hlen]
    · rw [if_neg hlen]
      exact foldl_accumulate_success _ _
  · rfl

/-- Concrete run of the C9 theorem: three records in batches of two,
every bulk write failing entirely, still finalizes with
`success = True` while all records are counted failed. -/
theorem C9_witness :
    (migrateCollection false true [[("a", "1")], [("a", "2")], [("a", "3")]] 2
        (fun _ => .pyMongoErr 0)).success = true ∧
    (migrateCollection false true [[("a", "1")], [("a", "2")], [("a", "3")]] 2
        (fun _ => .pyMongoErr 0)).failedDocuments = 3 := by
  refine ⟨?_, by decide⟩
  exact (C9_success_independent_of_failed_count
    [[("a", "1")], [("a", "2")], [("a", "3")]] 2 (fun _ => .pyMongoErr 0)).1
    false true (Or.inr rfl)

/-! Destination container management
(`CosmosDBRUManager.create_collection_with_throughput` and
`CosmosDBRUManager.ensure_collection_exists`, cosmos_ru_manager.py
lines 66-128 and 208-246).  The throughput mode, RU values and
partition key only shape the creation command's payload, never its
control flow, so they are elided here. -/

/-- Destination database state: the collections it currently holds. -/
structure DestState where
  collections : List String
  deriving DecidableEq

/-- How the destination answers the `CreateCollection` custom command:
`ok: 1` (collection created), a non-1 `ok` result, an
`OperationFailure` whose text contains `NamespaceExists`, another
`OperationFailure`, or a non-pymongo exception. -/
inductive CreateCmdOutcome where
  | okOne
  | okOther
  | namespaceExists
  | opFailureOther (cause : Nat)
  | otherExc (cause : Nat)
  deriving DecidableEq

/-- `create_collection_with_throughput`: issue the creation command and
map its outcome to the returned boolean; a `NamespaceExists` failure is
logged and treated as success, any other failure returns `False`. -/
def createCollectionWithThroughput (st : DestState) (name : String)
    (cmdRes : CreateCmdOutcome) : Bool × DestState :=
  match cmdRes with
  | .okOne => (true, ⟨st.collections ++ [name]⟩)
  | .okOther => (false, st)
  | .namespaceExists => (true, st)
  | .opFailureOther _ => (false, st)
  | .otherExc _ => (false, st)

/-- Behaviour of a well-formed destination server on the creation
command: creating a namespace that already exists fails with
`NamespaceExists`, otherwise the collection is created with `ok: 1`. -/
def serverCreateOutcome (st : DestState) (name : String) : CreateCmdOutcome :=
  if name ∈ st.collections then .namespaceExists else .okOne

/-- `ensure_collection_exists`: return success untouched when the
collection is already listed; otherwise create it, with standard
creation on the vCore path and the throughput command on the RU path. -/
def ensureCollectionExists (targetIsVcore : Bool) (st : DestState) (name : String) :
    Bool × DestState :=
  if name ∈ st.collections then (true, st)
  else if targetIsVcore then (true, ⟨st.collections ++ [name]⟩)
  else createCollectionWithThroughput st name (serverCreateOutcome st name)

/-- C6: `ensure_collection_exists` is idempotent — an existing
collection yields success with the destination unmodified, a creation
failing with `NamespaceExists` is treated as success, and two calls in
a row both succeed and leave the same final destination state. -/
theorem C6_ensure_collection_idempotent :
    (∀ v st name, name ∈ st.collections →
      ensureCollectionExists v st name = (true, st)) ∧
    (∀ st name, createCollectionWithThroughput st name .namespaceExists = (true, st)) ∧
    (∀ v st name,
      (ensureCollectionExists v st name).1 = true ∧
      ensureCollectionExists v (ensureCollectionExists v st name).2 name
        = (true, (ensureCollectionExists v st name).2)) := by
  refine ⟨?_, ?_, ?_⟩
  · intro v st name h
    simp [ensureCollectionExists, h]
  · intro st name
    rfl
  · intro v st name
    by_cases h : name ∈ st.collections
    · simp [ensureCollectionExists, h]
    · rcases v with _ | _
      · simp [ensureCollectionExists, h, createCollectionWithThroughput,
          serverCreateOutcome]
      · simp [ensureCollectionExists, h]

/-- Concrete run of the C6 theorem: ensuring the already-present
collection 'orders' succeeds without modification, a `NamespaceExists`
creation failure is success, and a repeated ensure of a fresh
collection succeeds twice with a stable final state. -/
theorem C6_witness :
    ensureCollectionExists false ⟨["orders"]⟩ "orders" = (true, ⟨["orders"]⟩) ∧
    createCollectionWithThroughput ⟨["orders"]⟩ "users" .namespaceExists
        = (true, ⟨["orders"]⟩) ∧
    (ensureCollectionExists false ⟨["orders"]⟩ "users").1 = true ∧
    ensureCollectionExists false (ensureCollectionExists false ⟨["orders"]⟩ "users").2 "users"
        = (true, (ensureCollectionExists false ⟨["orders"]⟩ "users").2) := by
  have h := C6_ensure_collection_idempotent
  exact ⟨h.1 false ⟨["orders"]⟩ "orders" (by decide), h.2.1 ⟨["orders"]⟩ "users",
    (h.2.2 false ⟨["orders"]⟩ "users").1, (h.2.2 false ⟨["orders"]⟩ "users").2⟩

/-! Partition-key recommendation
(`CosmosDBRUManager.get_recommended_partition_key`, cosmos_ru_manager.py
lines 248-307). -/

/-- Keys of a record, in insertion order (`doc.keys()`). -/
def docKeys (d : Doc) : List String := d.map Prod.fst

/-- Whether a record carries a field. -/
def docHasField (d : Doc) (f : String) : Bool := (d.lookup f).isSome

/-- `field_stats[field]["count"]`: in how many sampled records the
field occurs. -/
def fieldCount (docs : List Doc) (f : String) : Nat :=
  docs.countP (fun d => docHasField d f)

/-- `field_stats[field]["unique_values"]`: the distinct stringified
values seen for the field, collected only while fewer than 1000 are
stored (lines 278-280). -/
def fieldUniqueVals (docs : List Doc) (f : String) : List String :=
  docs.foldl (fun acc d =>
    match d.lookup f with
    | some v => if acc.length < 1000 then (if v ∈ acc then acc else acc ++ [v]) else acc
    | none => acc) []

/-- Score of one field (lines 289-293):
`0.6 * occurrences / sampleSize + 0.4 * distinctValues / sampleSize`. -/
def fieldScore (docs : List Doc) (f : String) : ℚ :=
  (fieldCount docs f : ℚ) / (docs.length : ℚ) * (6 / 10)
    + ((fieldUniqueVals docs f).length : ℚ) / (docs.length : ℚ) * (4 / 10)

/-- The fields observed across the sample, in first-encounter order
(the `field_stats` dict's key order). -/
def observedFields (docs : List Doc) : List String :=
  docs.foldl (fun acc d =>
    (docKeys d).foldl (fun a k => if k ∈ a then a else a ++ [k]) acc) []

/-- The `scored_fields` list: every observed field except `_id`, paired
with its score. -/
def scoredFields (docs : List Doc) : List (String × ℚ) :=
  ((observedFields docs).filter (fun f => f ≠ "_id")).map
    (fun f => (f, fieldScore docs f))

/-- Selection made by the stable descending sort plus `[0]` of
lines 296-299: the earliest entry among those of maximal score. -/
def pickBest (p : String × ℚ) (ps : List (String × ℚ)) : String × ℚ :=
  ps.foldl (fun best q => if best.2 < q.2 then q else best) p

/-- The best-scored entry of `scored_fields`, if any. -/
def bestScored : List (String × ℚ) → Option (String × ℚ)
  | [] => none
  | p :: ps => some (pickBest p ps)

/-- `get_recommended_partition_key`: sample up to 100 records, fall
back to the configured default on an empty sample or when nothing was
scored, else return the best-scored field. -/
def getRecommendedPartitionKey (defaultKey : String) (collection : List Doc) : String :=
  let sampleDocs := collection.take 100
  if sampleDocs.isEmpty then defaultKey
  else
    match bestScored (scoredFields sampleDocs) with
    | some best => best.1
    | none => defaultKey

/-- `pickBest` returns an element of the list that weakly dominates
every element's score. -/
theorem pickBest_spec (ps : List (String × ℚ)) : ∀ p : String × ℚ,
    pickBest p ps ∈ p :: ps ∧ ∀ q ∈ p :: ps, q.2 ≤ (pickBest p ps).2 := by
  induction ps with
  | nil =>
    intro p
    refine ⟨by simp [pickBest], ?_⟩
    intro q hq
    rcases List.mem_singleton.mp hq with rfl
    simp [pickBest]
  | cons q qs ih =>
    intro p
    by_cases hlt : p.2 < q.2
    · have hstep : pickBest p (q :: qs) = pickBest q qs := by
        simp [pickBest, hlt]
      refine ⟨?_, ?_⟩
      · rw [hstep]
        rcases List.mem_cons.mp (ih q).1 with h | h
        · rw [h]
          exact List.mem_cons_of_mem _ (List.mem_cons_self _ _)
        · exact List.mem_cons_of_mem _ (List.mem_cons_of_mem _ h)
      · intro r hr
        rw [hstep]
        rcases List.mem_cons.mp hr with rfl | hr2
        · exact le_trans (le_of_lt hlt) ((ih q).2 q (List.mem_cons_self _ _))
        · exact (ih q).2 r hr2
    · have hstep : pickBest p (q :: qs) = pickBest p qs := by
        simp [pickBest, hlt]
      refine ⟨?_, ?_⟩
      · rw [hstep]
        rcases List.mem_cons.mp (ih p).1 with h | h
        · rw [h]
          exact List.mem_cons_self _ _
        · exact List.mem_cons_of_mem _ (List.mem_cons_of_mem _ h)
      · intro r hr
        rw [hstep]
        rcases List.mem_cons.mp hr with rfl | hr2
        · exact (ih r).2 r (List.mem_cons_self _ _)
        · rcases List.mem_cons.mp hr2 with rfl | hr3
          · exact le_trans (le_of_not_lt hlt) ((ih p).2 p (List.mem_cons_self _ _))
          · exact (ih p).2 r (List.mem_cons_of_mem _ hr3)

/-- The C7 example sample: field X occurs in all four records with
four distinct values; field Y occurs in half of them with one distinct
value. -/
def c7Sample : List Doc :=
  [[("_id", "1"), ("X", "a"), ("Y", "v")],
   [("_id", "2"), ("X", "b"), ("Y", "v")],
   [("_id", "3"), ("X", "c")],
   [("_id", "4"), ("X", "d")]]

/-- The scored fields of the example sample are X and Y, in that
order. -/
theorem c7_scoredFields :
    scoredFields c7Sample
      = [("X", fieldScore c7Sample "X"), ("Y", fieldScore c7Sample "Y")] := by
  rfl

/-- X scores 0.6 * 4/4 + 0.4 * 4/4 = 1 on the example sample. -/
theorem c7_scoreX : fieldScore c7Sample "X" = 1 := by
  have hc : fieldCount c7Sample "X" = 4 := by decide
  have hu : (fieldUniqueVals c7Sample "X").length = 4 := by decide
  have hl : c7Sample.length = 4 := by decide
  unfold fieldScore
  rw [hc, hu, hl]
  norm_num

/-- Y scores 0.6 * 2/4 + 0.4 * 1/4 = 2/5 on the example sample. -/
theorem c7_scoreY : fieldScore c7Sample "Y" = 2 / 5 := by
  have hc : fieldCount c7Sample "Y" = 2 := by decide
  have hu : (fieldUniqueVals c7Sample "Y").length = 1 := by decide
  have hl : c7Sample.length = 4 := by decide
  unfold fieldScore
  rw [hc, hu, hl]
  norm_num

/-- On the example sample the recommendation selects X. -/
theorem c7_concrete : getRecommendedPartitionKey "_id" c7Sample = "X" := by
  have htake : c7Sample.take 100 = c7Sample := rfl
  have hemp : c7Sample.isEmpty = false := rfl
  have hbest : bestScored (scoredFields c7Sample)
      = some (pickBest ("X", fieldScore c7Sample "X")
          [("Y", fieldScore c7Sample "Y")]) := by
    rw [c7_scoredFields]
    rfl
  have hpick : pickBest ("X", fieldScore c7Sample "X") [("Y", fieldScore c7Sample "Y")]
      = ("X", fieldScore c7Sample "X") := by
    have hstep : pickBest ("X", fieldScore c7Sample "X") [("Y", fieldScore c7Sample "Y")]
        = if fieldScore c7Sample "X" < fieldScore c7Sample "Y"
          then ("Y", fieldScore c7Sample "Y")
          else ("X", fieldScore c7Sample "X") := rfl
    rw [hstep, if_neg]
    rw [c7_scoreX, c7_scoreY]
    norm_num
  simp only [getRecommendedPartitionKey, htake, hemp, Bool.false_eq_true, if_false,
    hbest, hpick]

/-- C7: the recommendation falls back to the configured default on an
empty sample and when no field was scored; otherwise it returns a
field of maximal score among the scored fields (which exclude `_id`
and are scored `0.6 * frequency + 0.4 * cardinality` with capped
deduplication, per `fieldScore` and `fieldUniqueVals`); on the example
sample it selects X over Y. -/
theorem C7_partition_key_highest_score (defaultKey : String) (collection : List Doc) :
    (collection = [] → getRecommendedPartitionKey defaultKey collection = defaultKey) ∧
    (scoredFields (collection.take 100) = [] →
      getRecommendedPartitionKey defaultKey collection = defaultKey) ∧
    (∀ p ps, scoredFields (collection.take 100) = p :: ps →
      ∃ best ∈ scoredFields (collection.take 100),
        getRecommendedPartitionKey defaultKey collection = best.1 ∧
        ∀ q ∈ scoredFields (collection.take 100), q.2 ≤ best.2) ∧
    getRecommendedPartitionKey "_id" c7Sample = "X" := by
  refine ⟨?_, ?_, ?_, ?_⟩
  · intro h
    subst h
    simp [getRecommendedPartitionKey]
  · intro h
    by_cases he : (collection.take 100).isEmpty
    · simp [getRecommendedPartitionKey, he]
    · simp [getRecommendedPartitionKey, he, h, bestScored]
  · intro p ps h
    have hsne : ¬ (collection.take 100).isEmpty = true := by
      intro he
      rw [List.isEmpty_iff] at he
      rw [he] at h
      simp [scoredFields, observedFields] at h
    have hspec := pickBest_spec ps p
    refine ⟨pickBest p ps, ?_, ?_, ?_⟩
    · rw [h]
      exact hspec.1
    · simp [getRecommendedPartitionKey, hsne, h, bestScored]
    · rw [h]
      exact hspec.2
  · exact c7_concrete

/-- Concrete run of the C7 theorem: the empty-sample fallback at the
default key 'pk'. -/
theorem C7_witness : getRecommendedPartitionKey "pk" [] = "pk" := by
  exact (C7_partition_key_highest_score "pk" []).1 rfl

end MoveData
